import Mathlib

/-!
Shallow embedding of the NovelUpdates scraping core
(`app/services/novelupdates_cloudscraper.py`) and proofs about it.

Strings are modelled as Lean `String`/`List Char`; regular-expression
searches from the source are translated into explicit leftmost-match
scanning functions, each one specialised to the concrete pattern that
appears in the source.  Python `int`/`float` chapter numbers are modelled
by the sum type `PyNum` (exact rationals stand in for floats).  Network
fetches are modelled as a function `Nat → Except String Doc` giving the
outcome of fetching each page.
-/

namespace Scraper

/-! ### Character and string helpers -/

/-- Python `str.lower()` on a character (ASCII, as used by the source). -/
def lowerChar (c : Char) : Char := c.toLower

/-- Python `str.lower()`: lower-case every character. -/
def lowerStr (s : List Char) : List Char := s.map lowerChar

/-- Python `sub in s` substring containment test. -/
def containsSub (pat : List Char) : List Char → Bool
  | [] => pat.isEmpty
  | c :: rest => pat.isPrefixOf (c :: rest) || containsSub pat rest

/-- Python `s.strip()`: remove whitespace from both ends. -/
def pyStrip (s : List Char) : List Char :=
  ((s.dropWhile Char.isWhitespace).reverse.dropWhile Char.isWhitespace).reverse

/-- Python `s.startswith(p)`. -/
def strStartsWith (s p : String) : Bool := p.data.isPrefixOf s.data

/-- Decimal value of a digit string, as produced by Python `int(...)`. -/
def natOfDigits (ds : List Char) : Nat :=
  ds.foldl (fun n c => 10 * n + (c.toNat - '0'.toNat)) 0

/-! ### The `<number>` regex fragment

`\d+(?:\.\d+)?` matched greedily at the current position: a maximal digit
run, then a fractional part if and only if a `.` followed by at least one
digit comes next.  Returns the captured characters and the rest of the
input, or `none` when the position does not start with a digit. -/

def matchNumber (s : List Char) : Option (List Char × List Char) :=
  match s.takeWhile Char.isDigit, s.dropWhile Char.isDigit with
  | [], _ => none
  | ds, rest =>
    match rest with
    | '.' :: r2 =>
      match r2.takeWhile Char.isDigit, r2.dropWhile Char.isDigit with
      | [], _ => some (ds, rest)
      | fs, r3 => some (ds ++ '.' :: fs, r3)
    | _ => some (ds, rest)

/-- Value of a captured `<number>` string (`123` or `123.5`), exact. -/
def ratOfCapture (cap : List Char) : ℚ :=
  match cap.dropWhile (fun c => !(c == '.')) with
  | '.' :: fs =>
    (natOfDigits (cap.takeWhile (fun c => !(c == '.'))) : ℚ) +
      (natOfDigits fs : ℚ) / ((10 : ℚ) ^ fs.length)
  | _ => (natOfDigits (cap.takeWhile (fun c => !(c == '.'))) : ℚ)

/-! ### Python numbers -/

/-- A Python chapter number: `int` or `float` (floats modelled exactly). -/
inductive PyNum where
  | pint (n : Nat)
  | pfloat (q : ℚ)
  deriving DecidableEq

/-- Numeric value of a `PyNum` (Python compares `int` and `float` numerically). -/
def PyNum.toRat : PyNum → ℚ
  | .pint n => n
  | .pfloat q => q

/-- Left-pad a string with zeros to the given length. -/
def padZeros (s : String) (n : Nat) : String :=
  String.mk (List.replicate (n - s.length) '0') ++ s

/-- Python `str(...)` of a non-negative float that is an exact decimal:
shortest decimal expansion, with `.0` for integral values. -/
def pyFloatRepr (q : ℚ) : String :=
  match (List.range (q.den + 1)).find? (fun e => 10 ^ e % q.den == 0) with
  | some e =>
    if e = 0 then toString q.num ++ ".0"
    else
      let scaled := q.num.toNat * 10 ^ e / q.den
      toString (scaled / 10 ^ e) ++ "." ++ padZeros (toString (scaled % 10 ^ e)) e
  | none => toString q.num ++ "/" ++ toString q.den

/-- Python `f"{num}"` for a chapter number. -/
def PyNum.repr : PyNum → String
  | .pint n => toString n
  | .pfloat q => pyFloatRepr q

/-! ### `_parse_chapter_number`

The source tries four regexes in order on the lower-cased title, first
match wins; each matcher below implements one regex's leftmost search and
returns the captured group. -/

/-- Pattern `c(\d+(?:\.\d+)?)` at the current position. -/
def matchCAt : List Char → Option (List Char)
  | 'c' :: rest => (matchNumber rest).map (·.1)
  | _ => none

/-- Pattern `ch\.?\s*(\d+(?:\.\d+)?)` at the current position. -/
def matchChAt : List Char → Option (List Char)
  | 'c' :: 'h' :: rest =>
    let r1 := match rest with
      | '.' :: t => t
      | _ => rest
    (matchNumber (r1.dropWhile Char.isWhitespace)).map (·.1)
  | _ => none

/-- Pattern `chapter\s*(\d+(?:\.\d+)?)` at the current position. -/
def matchChapterAt : List Char → Option (List Char)
  | 'c' :: 'h' :: 'a' :: 'p' :: 't' :: 'e' :: 'r' :: rest =>
    (matchNumber (rest.dropWhile Char.isWhitespace)).map (·.1)
  | _ => none

/-- Pattern `(\d+(?:\.\d+)?)(?:\s*-|\s*$)` at the current position. -/
def matchBareAt (s : List Char) : Option (List Char) :=
  match matchNumber s with
  | none => none
  | some (cap, rest) =>
    match rest.dropWhile Char.isWhitespace with
    | [] => some cap
    | '-' :: _ => some cap
    | _ => none

/-- Python `re.search`: try the position matcher at each start position, leftmost
success wins. -/
def searchCapture (m : List Char → Option (List Char)) : List Char → Option (List Char)
  | [] => none
  | c :: rest =>
    match m (c :: rest) with
    | some cap => some cap
    | none => searchCapture m rest

/-- The capture of the first of the four patterns that matches anywhere in
the (lower-cased) title, in the source's fixed precedence order. -/
def firstCapture (t : List Char) : Option (List Char) :=
  match searchCapture matchCAt t with
  | some cap => some cap
  | none =>
    match searchCapture matchChAt t with
    | some cap => some cap
    | none =>
      match searchCapture matchChapterAt t with
      | some cap => some cap
      | none => searchCapture matchBareAt t

/-- Source `_parse_chapter_number`: first matching pattern's capture, resolved to
a float when it contains a decimal point and an int otherwise; `1` when no
pattern matches. -/
def parseChapterNumber (title : String) : PyNum :=
  match firstCapture (lowerStr title.data) with
  | some cap =>
    if cap.contains '.' then .pfloat (ratOfCapture cap) else .pint (natOfDigits cap)
  | none => .pint 1

/-! ### `_clean_chapter_title`

Each stored pattern is anchored (`^...`) and ends in `\s*[-:]?\s*`; the
source applies the four substitutions one after the other, so several
leading tokens can be removed. -/

/-- The `\s*[-:]?\s*` tail of every cleaning pattern. -/
def stripSep (s : List Char) : List Char :=
  let r := s.dropWhile Char.isWhitespace
  let r2 := match r with
    | '-' :: t => t
    | ':' :: t => t
    | _ => r
  r2.dropWhile Char.isWhitespace

/-- Substitution `re.sub(r'^c\d+(?:\.\d+)?\s*[-:]?\s*', '', s, flags=IGNORECASE)`. -/
def stripC (s : List Char) : List Char :=
  match s with
  | c :: rest =>
    if lowerChar c = 'c' then
      match matchNumber rest with
      | some (_, r) => stripSep r
      | none => s
    else s
  | [] => s

/-- Substitution `re.sub(r'^ch\.?\s*\d+(?:\.\d+)?\s*[-:]?\s*', '', s, flags=IGNORECASE)`. -/
def stripCh (s : List Char) : List Char :=
  match s with
  | a :: b :: rest =>
    if lowerChar a = 'c' ∧ lowerChar b = 'h' then
      let r1 := match rest with
        | '.' :: t => t
        | _ => rest
      match matchNumber (r1.dropWhile Char.isWhitespace) with
      | some (_, r) => stripSep r
      | none => s
    else s
  | _ => s

/-- Substitution `re.sub(r'^chapter\s*\d+(?:\.\d+)?\s*[-:]?\s*', '', s, flags=IGNORECASE)`. -/
def stripChapterWord (s : List Char) : List Char :=
  match s with
  | c1 :: c2 :: c3 :: c4 :: c5 :: c6 :: c7 :: rest =>
    if [lowerChar c1, lowerChar c2, lowerChar c3, lowerChar c4,
        lowerChar c5, lowerChar c6, lowerChar c7] = ['c', 'h', 'a', 'p', 't', 'e', 'r'] then
      match matchNumber (rest.dropWhile Char.isWhitespace) with
      | some (_, r) => stripSep r
      | none => s
    else s
  | _ => s

/-- Substitution `re.sub(r'^\d+(?:\.\d+)?\s*[-:]?\s*', '', s, flags=IGNORECASE)`. -/
def stripBare (s : List Char) : List Char :=
  match matchNumber s with
  | some (_, r) => stripSep r
  | none => s

/-- Source `_clean_chapter_title`: the `for pattern in patterns: re.sub(...)` loop,
then `.strip()`, then the `or f"Chapter {...}"` fallback. -/
def cleanChapterTitle (title : String) : String :=
  let r := [stripC, stripCh, stripChapterWord, stripBare].foldl (fun s f => f s) title.data
  let r2 := pyStrip r
  if r2 = [] then "Chapter " ++ (parseChapterNumber title).repr else String.mk r2

/-! ### Status classifier (`_extract_novel_info`, `editstatus` block) -/

/-- Pattern `(\d+)\s+<word>s?` (case-insensitive, input pre-lowered) matched at the
current position: a maximal digit run, at least one whitespace, then the
literal word. -/
def matchCountAt (word : List Char) (s : List Char) : Option Nat :=
  match s.takeWhile Char.isDigit, s.dropWhile Char.isDigit with
  | [], _ => none
  | ds, r =>
    if r.takeWhile Char.isWhitespace = [] then none
    else if word.isPrefixOf (r.dropWhile Char.isWhitespace) then some (natOfDigits ds)
    else none

/-- Search `re.search` for `(\d+)\s+<word>s?`: leftmost match wins. -/
def searchCount (word : List Char) : List Char → Option Nat
  | [] => none
  | c :: rest =>
    match matchCountAt word (c :: rest) with
    | some n => some n
    | none => searchCount word rest

/-- Search `re.search(r'(\d+)\s+chapters?', status_text, re.IGNORECASE)`. -/
def chapterCount (text : String) : Option Nat :=
  searchCount "chapter".data (lowerStr text.data)

/-- Search `re.search(r'(\d+)\s+volumes?', status_text, re.IGNORECASE)`. -/
def volumeCount (text : String) : Option Nat :=
  searchCount "volume".data (lowerStr text.data)

/-- The keyword cascade classifying `status` from the lower-cased text. -/
def classifyStatus (text : String) : String :=
  let t := lowerStr text.data
  if containsSub "completed".data t || containsSub "complete".data t then "completed"
  else if containsSub "ongoing".data t then "ongoing"
  else if containsSub "hiatus".data t then "hiatus"
  else if containsSub "dropped".data t then "dropped"
  else "unknown"

/-- The fields of `novel_info` written by the `editstatus` block.
`total_volumes` is `none` when the source leaves the key unset. -/
structure StatusInfo where
  total_chapters : Nat
  total_volumes : Option Nat
  content_type : String
  status : String
  raw_status : Option String
  deriving DecidableEq

/-- The `editstatus` block of `_extract_novel_info`: the argument is the
status div's stripped text, or `none` when the div is absent. -/
def extractStatusInfo : Option String → StatusInfo
  | some text =>
    match chapterCount text, volumeCount text with
    | some n, _ =>
      { total_chapters := n, total_volumes := none, content_type := "chapters",
        status := classifyStatus text, raw_status := some text }
    | none, some v =>
      { total_chapters := 0, total_volumes := some v, content_type := "volumes",
        status := classifyStatus text, raw_status := some text }
    | none, none =>
      { total_chapters := 0, total_volumes := none, content_type := "unknown",
        status := classifyStatus text, raw_status := some text }
  | none =>
    { total_chapters := 0, total_volumes := none, content_type := "unknown",
      status := "unknown", raw_status := none }

/-! ### Genres (`seriesgenre` block) -/

/-- The genre block: each element is one `<a>`'s `.string` (`none` when the
tag has no single string child).  `if genre_link.string:` tests truthiness
of the raw string, before `.strip()`. -/
def extractGenres (links : List (Option String)) : List String :=
  links.filterMap (fun s? =>
    match s? with
    | some s => if s = "" then none else some (String.mk (pyStrip s.data))
    | none => none)

/-! ### Cover image (`cover_img` block) -/

/-- Site base URL held by the scraper instance. -/
def baseUrl : String := "https://www.novelupdates.com"

/-- The cover heuristic: non-empty `src` containing the CDN marker
(case-sensitive) or `cover`/`hardcover` case-insensitively. -/
def isCoverSrc (src : String) : Bool :=
  !(src == "") &&
    (containsSub "cdn.novelupdates.com/images".data src.data
      || containsSub "cover".data (lowerStr src.data)
      || containsSub "hardcover".data (lowerStr src.data))

/-- Python `urljoin(base_url, src)` for the one call site, where `src` starts with
a single `/` and the base has no path: scheme and host of the base followed
by the reference path. -/
def urljoinBase (src : String) : String := baseUrl ++ src

/-- The three normalisation branches applied to a matching `src`; a bare
relative path hits none of them and leaves `cover_img` as `None`. -/
def normalizeCover (src : String) : Option String :=
  if strStartsWith src "//" then some ("https:" ++ src)
  else if strStartsWith src "/" then some (urljoinBase src)
  else if strStartsWith src "http" then some src
  else none

/-- The image scan: first `src` matching the heuristic decides the result
(`break` after the first match, whether or not a branch fired). -/
def extractCover : List String → Option String
  | [] => none
  | src :: rest => if isCoverSrc src then normalizeCover src else extractCover rest

/-! ### Chapter table (`_extract_chapters_from_page`) -/

/-- A link inside a table cell: its stripped text and `href` value. -/
structure Link where
  text : String
  href : String
  deriving DecidableEq

/-- A table cell: its first `<a>` (if any) and its stripped text. -/
structure Cell where
  link : Option Link
  text : String
  deriving DecidableEq

/-- One `<tr>` of the chapter table. -/
structure Row where
  cells : List Cell
  deriving DecidableEq

/-- Source `ChapterInfo` record. -/
structure ChapterInfo where
  title : String
  chapter_number : PyNum
  source_url : String
  release_date : Option String
  deriving DecidableEq

/-- The body of the row loop: `None` when the row is skipped. -/
def extractRowChapter (row : Row) : Option ChapterInfo :=
  match row.cells with
  | c0 :: c1 :: _ =>
    match c0.link with
    | none => none
    | some l =>
      if l.text = "" ∨ l.text.length < 3 then none
      else some
        { title := cleanChapterTitle l.text,
          chapter_number := parseChapterNumber l.text,
          source_url := l.href,
          release_date := some c1.text }
  | _ => none

/-- Source `_extract_chapters_from_page`: `none` models a missing `myTable`;
otherwise the header row is dropped and each remaining row yields at most
one record, in row order. -/
def extractChaptersFromPage (table : Option (List Row)) : List ChapterInfo :=
  match table with
  | none => []
  | some rows => (rows.drop 1).filterMap extractRowChapter

/-! ### Pagination (`_find_max_page`) -/

/-- Search `re.search(r'pg=(\d+)', href)`: leftmost `pg=` immediately followed by
at least one digit; captures the maximal digit run. -/
def extractPg : List Char → Option Nat
  | [] => none
  | c :: rest =>
    match c, rest with
    | 'p', 'g' :: '=' :: r2 =>
      match r2.takeWhile Char.isDigit with
      | [] => extractPg rest
      | ds => some (natOfDigits ds)
    | _, _ => extractPg rest

/-- Source `_find_max_page` over the hrefs of all pagination anchors. -/
def findMaxPage (hrefs : List String) : Nat :=
  hrefs.foldl (fun acc h =>
    match extractPg h.data with
    | some n => max acc n
    | none => acc) 1

/-! ### Full scrape (`scrape_novel_by_url`) -/

/-- One fetched-and-parsed page, reduced to the parts the scrape reads. -/
structure Doc where
  statusText : Option String
  genreLinks : Option (List (Option String))
  imgSrcs : List String
  chapterTable : Option (List Row)
  anchorHrefs : List String

/-- The `novel_info` fields relevant here, after the `setdefault` calls. -/
structure NovelInfo where
  genres : List String
  status : String
  total_chapters : Nat
  total_volumes : Nat
  content_type : String
  raw_status : Option String
  cover_url : Option String
  chapters : List ChapterInfo

/-- Sort key comparison `lambda x: x.chapter_number`. -/
def chapterLE (a b : ChapterInfo) : Prop :=
  a.chapter_number.toRat ≤ b.chapter_number.toRat

instance : DecidableRel chapterLE :=
  fun a b => inferInstanceAs (Decidable (_ ≤ _))

instance : IsTotal ChapterInfo chapterLE :=
  ⟨fun a b => le_total a.chapter_number.toRat b.chapter_number.toRat⟩

instance : IsTrans ChapterInfo chapterLE :=
  ⟨fun _ _ _ hab hbc => le_trans hab hbc⟩

/-- Python `all_chapters.sort(key=lambda x: x.chapter_number)`: the sort is
the stable ascending sort by the key, embedded as insertion sort (any
stable sort of a total preorder computes the same list). -/
def sortChapters (l : List ChapterInfo) : List ChapterInfo :=
  l.insertionSort chapterLE

/-- The page loop of `scrape_novel_by_url`: fetch each page in order,
stopping (with everything before kept) at the first failure.  Also returns
the list of page numbers actually fetched. -/
def collectPages (fetch : Nat → Except String Doc) : List Nat → List ChapterInfo × List Nat
  | [] => ([], [])
  | p :: ps =>
    match fetch p with
    | .error _ => ([], [p])
    | .ok d =>
      let r := collectPages fetch ps
      (extractChaptersFromPage d.chapterTable ++ r.1, p :: r.2)

/-- The subsequent pages attempted for a first page: `range(2, max_page+1)`
after `max_page = min(max_page, 5)`. -/
def subsequentPages (doc : Doc) : List Nat :=
  List.range' 2 (min (findMaxPage doc.anchorHrefs) 5 - 1)

/-- Source `scrape_novel_by_url`: fetching/parsing is `fetch`, page 1 failure is
fatal, chapter scraping is optional.  Also returns the page numbers
fetched, in order. -/
def scrapeNovelByUrl (fetch : Nat → Except String Doc) (scrapeChapters : Bool) :
    Except String NovelInfo × List Nat :=
  match fetch 1 with
  | .error e => (.error ("Failed to scrape novel: " ++ e), [1])
  | .ok doc =>
    let si := extractStatusInfo doc.statusText
    let base : NovelInfo :=
      { genres := (doc.genreLinks.map extractGenres).getD [],
        status := si.status,
        total_chapters := si.total_chapters,
        total_volumes := si.total_volumes.getD 0,
        content_type := si.content_type,
        raw_status := si.raw_status,
        cover_url := extractCover doc.imgSrcs,
        chapters := [] }
    if scrapeChapters then
      let r := collectPages fetch (subsequentPages doc)
      let allChapters := sortChapters (extractChaptersFromPage doc.chapterTable ++ r.1)
      let info :=
        { base with
          chapters := allChapters,
          total_chapters := if allChapters.isEmpty then si.total_chapters else allChapters.length }
      (.ok info, 1 :: r.2)
    else (.ok base, [1])


/-- Chapters extracted from page `j` of a fetch outcome function (`[]` when
the fetch failed). -/
def fetchedChapters (fetch : Nat → Except String Doc) (j : Nat) : List ChapterInfo :=
  match fetch j with
  | .ok d => extractChaptersFromPage d.chapterTable
  | .error _ => []

/-- Spec-side reformulation of the row rule, for the amended C7: a row with
at least two cells whose first cell holds a link with text of length at
least 3 yields exactly one record, with the second cell's text verbatim as
`release_date`; every other row yields nothing. -/
def rowRecordSpec (row : Row) : Option ChapterInfo :=
  match row.cells with
  | c0 :: c1 :: _ =>
    match c0.link with
    | some l =>
      if 3 ≤ l.text.length then
        some { title := cleanChapterTitle l.text,
               chapter_number := parseChapterNumber l.text,
               source_url := l.href,
               release_date := some c1.text }
      else none
    | none => none
  | _ => none

/-! ### Concrete fixtures used by witnesses -/

/-- A well-formed chapter row: link in the first cell, date in the second. -/
def mkRow (t u d : String) : Row := ⟨[⟨some ⟨t, u⟩, ""⟩, ⟨none, d⟩]⟩

/-- First page: status text, three-page pagination, two chapter rows. -/
def wDoc1 : Doc :=
  { statusText := some "10 Chapters (Ongoing)",
    genreLinks := some [some "Action"],
    imgSrcs := ["https://cdn.novelupdates.com/images/c.png"],
    chapterTable := some [⟨[]⟩, mkRow "c3 - three" "u3" "d3", mkRow "c1 - one A" "u1" "d1"],
    anchorHrefs := ["?pg=3", "?pg=2"] }

/-- Second page: two more chapter rows. -/
def wDoc2 : Doc :=
  { statusText := none, genreLinks := none, imgSrcs := [],
    chapterTable := some [⟨[]⟩, mkRow "c2 - two" "u2" "d2", mkRow "c1 - one B" "u1b" "d1b"],
    anchorHrefs := [] }

/-- Fetch outcomes: pages 1 and 2 succeed, page 3 (and beyond) fails. -/
def wFetch : Nat → Except String Doc
  | 1 => .ok wDoc1
  | 2 => .ok wDoc2
  | _ => .error "boom"

/-- Fallback record for reading a scrape result out of `Except`. -/
def emptyNovelInfo : NovelInfo :=
  { genres := [], status := "unknown", total_chapters := 0, total_volumes := 0,
    content_type := "unknown", raw_status := none, cover_url := none, chapters := [] }

/-- The `NovelInfo` of a successful scrape outcome. -/
def scrapeResult (p : Except String NovelInfo × List Nat) : NovelInfo :=
  match p.1 with
  | .ok r => r
  | .error _ => emptyNovelInfo

/-- The scrape result of the `wFetch` fixture. -/
def wRes : NovelInfo := scrapeResult (scrapeNovelByUrl wFetch true)

/-- Chapter fixtures for the stable-sort example: numbers 3, 1, 2, 1. -/
def cN3 : ChapterInfo := ⟨"a", .pint 3, "", none⟩

def cN1A : ChapterInfo := ⟨"b", .pint 1, "", none⟩

def cN2 : ChapterInfo := ⟨"c", .pint 2, "", none⟩

def cN1B : ChapterInfo := ⟨"d", .pint 1, "", none⟩

/-! ## Theorems -/

theorem ratOfCapture_nonneg (cap : List Char) : 0 ≤ ratOfCapture cap := by
  unfold ratOfCapture
  split
  · positivity
  · positivity

/-- C1: `parse_number` is total and never negative: its value is the capture
of the first matching pattern in the precedence order of `firstCapture`
(resolved as a decimal value exactly when the capture contains a `.`, an
integer otherwise), and `1` when no pattern matches. -/
theorem parse_number_spec (title : String) :
    0 ≤ (parseChapterNumber title).toRat ∧
    (firstCapture (lowerStr title.data) = none → parseChapterNumber title = PyNum.pint 1) ∧
    (∀ cap, firstCapture (lowerStr title.data) = some cap →
      parseChapterNumber title =
        if cap.contains '.' then PyNum.pfloat (ratOfCapture cap)
        else PyNum.pint (natOfDigits cap)) ∧
    ((∃ q, parseChapterNumber title = PyNum.pfloat q) ↔
      ∃ cap, firstCapture (lowerStr title.data) = some cap ∧ cap.contains '.' = true) := by
  refine ⟨?_, ?_, ?_, ?_⟩
  · unfold parseChapterNumber
    split
    · split
      · simpa [PyNum.toRat] using ratOfCapture_nonneg _
      · simp [PyNum.toRat]
    · simp [PyNum.toRat]
  · intro h
    unfold parseChapterNumber
    rw [h]
  · intro cap h
    unfold parseChapterNumber
    rw [h]
  · constructor
    · rintro ⟨q, hq⟩
      unfold parseChapterNumber at hq
      rcases h : firstCapture (lowerStr title.data) with _ | cap
      · rw [h] at hq
        exact absurd hq (by simp)
      · rw [h] at hq
        dsimp only at hq
        by_cases hdot : cap.contains '.'
        · exact ⟨cap, rfl, hdot⟩
        · rw [if_neg hdot] at hq
          exact absurd hq (by simp)
    · rintro ⟨cap, h, hdot⟩
      refine ⟨ratOfCapture cap, ?_⟩
      unfold parseChapterNumber
      rw [h]
      dsimp only
      rw [if_pos hdot]

theorem parse_number_spec_witness :
    parseChapterNumber "Prologue" = PyNum.pint 1 ∧
    parseChapterNumber "c123.5" = PyNum.pfloat (ratOfCapture ['1', '2', '3', '.', '5']) := by
  constructor
  · exact (parse_number_spec "Prologue").2.1 (by decide)
  · have h := (parse_number_spec "c123.5").2.2.1 ['1', '2', '3', '.', '5'] (by decide)
    rwa [if_pos (by decide)] at h

/-- C2: the status classifier extracts counts in strict either/or
precedence (chapters, else volumes, else neither) and classifies `status`
by the keyword cascade independently of the count branch taken. -/
theorem status_classifier_spec (text : String) :
    (∀ n, chapterCount text = some n →
      (extractStatusInfo (some text)).content_type = "chapters" ∧
      (extractStatusInfo (some text)).total_chapters = n) ∧
    (chapterCount text = none → ∀ v, volumeCount text = some v →
      (extractStatusInfo (some text)).content_type = "volumes" ∧
      (extractStatusInfo (some text)).total_volumes = some v ∧
      (extractStatusInfo (some text)).total_chapters = 0) ∧
    (chapterCount text = none → volumeCount text = none →
      (extractStatusInfo (some text)).content_type = "unknown" ∧
      (extractStatusInfo (some text)).total_chapters = 0 ∧
      (extractStatusInfo (some text)).total_volumes.getD 0 = 0) ∧
    (extractStatusInfo (some text)).status = classifyStatus text := by
  refine ⟨?_, ?_, ?_, ?_⟩
  · intro n hn
    simp [extractStatusInfo, hn]
  · intro hc v hv
    simp [extractStatusInfo, hc, hv]
  · intro hc hv
    simp [extractStatusInfo, hc, hv]
  · simp only [extractStatusInfo]
    rcases chapterCount text with _ | n
    · rcases volumeCount text with _ | v
      · rfl
      · rfl
    · rfl

theorem status_classifier_spec_witness :
    (extractStatusInfo (some "355 Chapters (Completed)")).content_type = "chapters" ∧
    (extractStatusInfo (some "355 Chapters (Completed)")).total_chapters = 355 ∧
    (extractStatusInfo (some "355 Chapters (Completed)")).status = "completed" := by
  have h := (status_classifier_spec "355 Chapters (Completed)").1 355 (by decide)
  have hs := (status_classifier_spec "355 Chapters (Completed)").2.2.2
  exact ⟨h.1, h.2, hs.trans (by decide)⟩

/-- C3: the final chapter sequence (the `sortChapters` merge step of
`scrape_novel_by_url`) is a permutation of the collected records, sorted
ascending by `chapter_number`, the sort is stable (a pair in key order,
in particular a tied pair, stays in its original relative order), and the
`[3, 1, 2, 1]` example sorts to `[1, 1, 2, 3]` with the tied records in
original order. -/
theorem chapter_sort_spec :
    (∀ l : List ChapterInfo, (sortChapters l).Perm l) ∧
    (∀ l : List ChapterInfo, (sortChapters l).Sorted chapterLE) ∧
    (∀ (l : List ChapterInfo) (a b : ChapterInfo),
      chapterLE a b → List.Sublist [a, b] l → List.Sublist [a, b] (sortChapters l)) ∧
    (∀ (fetch : Nat → Except String Doc) (doc : Doc) (res : NovelInfo) (log : List Nat),
      fetch 1 = Except.ok doc →
      scrapeNovelByUrl fetch true = (Except.ok res, log) →
      res.chapters = sortChapters (extractChaptersFromPage doc.chapterTable ++
        (collectPages fetch (subsequentPages doc)).1)) ∧
    sortChapters [cN3, cN1A, cN2, cN1B] = [cN1A, cN1B, cN2, cN3] := by
  refine ⟨?_, ?_, ?_, ?_, ?_⟩
  · exact fun l => List.perm_insertionSort chapterLE l
  · exact fun l => List.sorted_insertionSort chapterLE l
  · intro l a b hab hsub
    exact List.pair_sublist_insertionSort hab hsub
  · intro fetch doc res log h1 h2
    unfold scrapeNovelByUrl at h2
    rw [h1] at h2
    dsimp only at h2
    have := congrArg Prod.fst h2
    dsimp at this
    cases this
    rfl
  · decide

theorem chapter_sort_spec_witness :
    List.Sublist [cN1A, cN1B] (sortChapters [cN3, cN1A, cN2, cN1B]) :=
  chapter_sort_spec.2.2.1 [cN3, cN1A, cN2, cN1B] cN1A cN1B (by decide) (by decide)

theorem collectPages_break (fetch : Nat → Except String Doc) (l1 : List Nat) (k : Nat)
    (l2 : List Nat) (e : String)
    (hok : ∀ j ∈ l1, ∃ d, fetch j = Except.ok d) (hk : fetch k = Except.error e) :
    (collectPages fetch (l1 ++ k :: l2)).1 = l1.flatMap (fetchedChapters fetch) := by
  induction l1 with
  | nil =>
    simp only [List.nil_append, List.flatMap_nil]
    unfold collectPages
    rw [hk]
  | cons j js ih =>
    obtain ⟨d, hd⟩ := hok j (by simp)
    have ihh := ih (fun x hx => hok x (by simp [hx]))
    simp only [List.cons_append, List.flatMap_cons]
    unfold collectPages
    rw [hd]
    dsimp only
    rw [ihh]
    unfold fetchedChapters
    rw [hd]

/-- C4: during a full scrape, a failing subsequent page stops pagination
but keeps the chapters of the pages before it and raises no error (the
result is still `Except.ok`); only a page-1 failure surfaces as the
scraper's error. -/
theorem scrape_partial_failure (fetch : Nat → Except String Doc) :
    (∀ e, fetch 1 = Except.error e →
      (scrapeNovelByUrl fetch true).1 = Except.error ("Failed to scrape novel: " ++ e)) ∧
    (∀ doc, fetch 1 = Except.ok doc →
      (∃ res log, scrapeNovelByUrl fetch true = (Except.ok res, log)) ∧
      (∀ res log, scrapeNovelByUrl fetch true = (Except.ok res, log) →
        ∀ l1 k l2 e, subsequentPages doc = l1 ++ k :: l2 →
          (∀ j ∈ l1, ∃ d, fetch j = Except.ok d) →
          fetch k = Except.error e →
          res.chapters.Perm (extractChaptersFromPage doc.chapterTable ++
            l1.flatMap (fetchedChapters fetch)))) := by
  constructor
  · intro e he
    unfold scrapeNovelByUrl
    rw [he]
  · intro doc hdoc
    constructor
    · unfold scrapeNovelByUrl
      rw [hdoc]
      exact ⟨_, _, rfl⟩
    · intro res log hres l1 k l2 e hp hok hk
      unfold scrapeNovelByUrl at hres
      rw [hdoc] at hres
      dsimp only at hres
      have hfst := congrArg Prod.fst hres
      dsimp only at hfst
      injection hfst with hinfo
      subst hinfo
      dsimp only
      rw [hp, collectPages_break fetch l1 k l2 e hok hk]
      exact List.perm_insertionSort chapterLE _

theorem scrape_partial_failure_witness :
    ∃ res log, scrapeNovelByUrl wFetch true = (Except.ok res, log) ∧
      res.chapters.Perm (extractChaptersFromPage wDoc1.chapterTable ++
        [2].flatMap (fetchedChapters wFetch)) := by
  obtain ⟨⟨res, log, hres⟩, hpart⟩ := (scrape_partial_failure wFetch).2 wDoc1 rfl
  exact ⟨res, log, hres, hpart res log hres [2] 3 [] "boom" (by decide)
    (by intro j hj; simp at hj; subst hj; exact ⟨wDoc2, rfl⟩) rfl⟩

theorem findMaxPage_init_le (l : List String) (acc : Nat) :
    acc ≤ List.foldl (fun a h =>
      match extractPg h.data with
      | some n => max a n
      | none => a) acc l := by
  induction l generalizing acc with
  | nil => exact le_refl acc
  | cons s t ih =>
    rw [List.foldl_cons]
    refine le_trans ?_ (ih _)
    dsimp only
    cases extractPg s.data with
    | none => exact le_refl acc
    | some n => exact le_max_left acc n

theorem findMaxPage_bound_aux (l : List String) (acc : Nat) (s : String) (n : Nat)
    (hs : s ∈ l) (hn : extractPg s.data = some n) :
    n ≤ List.foldl (fun a h =>
      match extractPg h.data with
      | some n => max a n
      | none => a) acc l := by
  induction l generalizing acc with
  | nil => cases hs
  | cons hd t ih =>
    rw [List.foldl_cons]
    rcases List.mem_cons.mp hs with rfl | hmem
    · rw [hn]
      exact le_trans (le_max_right acc n) (findMaxPage_init_le t _)
    · exact ih _ hmem

theorem findMaxPage_attained_aux (l : List String) (acc : Nat) :
    List.foldl (fun a h =>
      match extractPg h.data with
      | some n => max a n
      | none => a) acc l = acc ∨
    ∃ s ∈ l, extractPg s.data = some (List.foldl (fun a h =>
      match extractPg h.data with
      | some n => max a n
      | none => a) acc l) := by
  induction l generalizing acc with
  | nil => exact Or.inl rfl
  | cons hd t ih =>
    rw [List.foldl_cons]
    cases hpg : extractPg hd.data with
    | none =>
      rcases ih acc with h | ⟨s, hs, he⟩
      · exact Or.inl h
      · exact Or.inr ⟨s, List.mem_cons_of_mem _ hs, he⟩
    | some n =>
      rcases ih (max acc n) with h | ⟨s, hs, he⟩
      · rw [h]
        rcases Nat.le_total n acc with hna | han
        · exact Or.inl (Nat.max_eq_left hna)
        · refine Or.inr ⟨hd, List.mem_cons_self hd t, ?_⟩
          rw [hpg, Nat.max_eq_right han]
      · exact Or.inr ⟨s, List.mem_cons_of_mem _ hs, he⟩

theorem collectPages_log_isPrefix (fetch : Nat → Except String Doc) (ps : List Nat) :
    (collectPages fetch ps).2.IsPrefix ps := by
  induction ps with
  | nil => exact ⟨[], rfl⟩
  | cons p t ih =>
    unfold collectPages
    cases fetch p with
    | error e => exact ⟨t, rfl⟩
    | ok d =>
      obtain ⟨r, hr⟩ := ih
      exact ⟨r, by simpa using hr⟩

/-- C5 counterexample: in the single anchor href `?pg=2&pg=9` the integer
`9` appears as a `pg=9` query parameter (the substring `pg=9` is present),
yet `find_max_page` returns `2`: the source takes only the first `pg=<n>`
regex match of each href, not the largest one appearing in it. -/
theorem find_max_page_counterexample :
    containsSub "pg=9".data "?pg=2&pg=9".data = true ∧
    findMaxPage ["?pg=2&pg=9"] = 2 ∧ (2 : Nat) ≠ 9 := by decide

/-- C5 (amended): `find_max_page` returns the maximum, over all anchor
hrefs, of the integer captured by the first `pg=<digits>` regex match of
each href (`1` when no href has such a match), and a full scrape attempts
at most 5 pages in total, in strictly ascending page order. -/
theorem pagination_bounded (hrefs : List String) (fetch : Nat → Except String Doc) :
    1 ≤ findMaxPage hrefs ∧
    (∀ s ∈ hrefs, ∀ n, extractPg s.data = some n → n ≤ findMaxPage hrefs) ∧
    (findMaxPage hrefs = 1 ∨ ∃ s ∈ hrefs, extractPg s.data = some (findMaxPage hrefs)) ∧
    (scrapeNovelByUrl fetch true).2.length ≤ 5 ∧
    (scrapeNovelByUrl fetch true).2.Pairwise (· < ·) := by
  refine ⟨findMaxPage_init_le hrefs 1, ?_, ?_, ?_⟩
  · intro s hs n hn
    exact findMaxPage_bound_aux hrefs 1 s n hs hn
  · exact findMaxPage_attained_aux hrefs 1
  · cases hf : fetch 1 with
    | error e =>
      unfold scrapeNovelByUrl
      rw [hf]
      exact ⟨by simp, by simp⟩
    | ok doc =>
      unfold scrapeNovelByUrl
      rw [hf]
      dsimp only
      rw [if_pos rfl]
      dsimp only
      have hpre := collectPages_log_isPrefix fetch (subsequentPages doc)
      have hsub := hpre.sublist
      have hlen : (collectPages fetch (subsequentPages doc)).2.length ≤ 4 := by
        refine le_trans hpre.length_le ?_
        unfold subsequentPages
        rw [List.length_range']
        have : min (findMaxPage doc.anchorHrefs) 5 ≤ 5 := min_le_right _ _
        omega
      constructor
      · simpa using hlen
      · rw [List.pairwise_cons]
        constructor
        · intro a ha
          have : a ∈ subsequentPages doc := hsub.mem ha
          unfold subsequentPages at this
          rw [List.mem_range'_1] at this
          omega
        · exact (List.pairwise_lt_range' 2 _).sublist hsub

theorem pagination_bounded_witness :
    7 ≤ findMaxPage ["?pg=12&x", "xpg=7y"] ∧ (scrapeNovelByUrl wFetch true).2.length ≤ 5 :=
  ⟨(pagination_bounded ["?pg=12&x", "xpg=7y"] wFetch).2.1 "xpg=7y" (by decide) 7 (by decide),
   (pagination_bounded ["?pg=12&x", "xpg=7y"] wFetch).2.2.2.1⟩

/-- C6 counterexample: `clean_title("c5 12 - Foo")` returns `"Foo"`, not
`"12 - Foo"`: the source applies all four stripping patterns in sequence,
so after the `c5` token is removed the bare-number pattern also removes the
leading `12 - ` of what the claim says is left intact. -/
theorem clean_title_counterexample :
    cleanChapterTitle "c5 12 - Foo" = "Foo" ∧
    cleanChapterTitle "c5 12 - Foo" ≠ "12 - Foo" := by decide

/-- C6 (amended): `clean_title` applies the four anchored numbering
patterns once each, in order (`c`, `ch`, `chapter`, bare number), each
removing a leading numbering token plus any immediately following
separator punctuation, so several stacked leading tokens can be removed;
the remainder is whitespace-stripped and, when empty, replaced by
`"Chapter <n>"` with `n` the parsed chapter number.  The claim's two
examples hold. -/
theorem clean_title_amended (title : String) :
    (pyStrip (stripBare (stripChapterWord (stripCh (stripC title.data)))) = [] →
      cleanChapterTitle title = "Chapter " ++ (parseChapterNumber title).repr) ∧
    (∀ r, pyStrip (stripBare (stripChapterWord (stripCh (stripC title.data)))) = r →
      r ≠ [] → cleanChapterTitle title = String.mk r) ∧
    cleanChapterTitle "c5 - The Awakening" = "The Awakening" ∧
    cleanChapterTitle "c5" = "Chapter 5" := by
  refine ⟨?_, ?_, by decide, by decide⟩
  · intro h
    unfold cleanChapterTitle
    dsimp only [List.foldl]
    rw [h, if_pos rfl]
  · intro r hr hne
    unfold cleanChapterTitle
    dsimp only [List.foldl]
    rw [hr, if_neg hne]

theorem clean_title_amended_witness :
    cleanChapterTitle "c7.5" = "Chapter " ++ (parseChapterNumber "c7.5").repr ∧
    cleanChapterTitle "c9: Dawn" = String.mk ['D', 'a', 'w', 'n'] :=
  ⟨(clean_title_amended "c7.5").1 (by decide),
   (clean_title_amended "c9: Dawn").2.1 ['D', 'a', 'w', 'n'] (by decide) (by decide)⟩

/-- C7 counterexample: a non-header row with a single cell whose link text
is 9 characters long yields no record at all (the source skips every row
with fewer than two cells), while the claim says it yields one record with
a null `release_date`. -/
theorem extract_chapters_counterexample :
    extractChaptersFromPage
      (some [Row.mk [], Row.mk [Cell.mk (some (Link.mk "Chapter 1" "url")) "x"]]) = [] ∧
    3 ≤ ("Chapter 1" : String).length := by decide

theorem extractRowChapter_eq_rowRecordSpec (row : Row) :
    extractRowChapter row = rowRecordSpec row := by
  unfold extractRowChapter rowRecordSpec
  rcases row with ⟨cells⟩
  rcases cells with _ | ⟨c0, _ | ⟨c1, rest⟩⟩
  · rfl
  · rfl
  · dsimp only
    rcases c0.link with _ | l
    · rfl
    · dsimp only
      by_cases h3 : 3 ≤ l.text.length
      · rw [if_pos h3, if_neg ?_]
        rintro (he | hlt)
        · rw [he] at h3
          exact absurd h3 (by decide)
        · omega
      · rw [if_neg h3, if_pos ?_]
        exact Or.inr (by omega)

/-- C7 (amended): after the header row is dropped, each remaining row with
at least two cells whose first cell holds a link with text of length at
least 3 yields exactly one record, whose `release_date` is the second
cell's text verbatim; rows with fewer than two cells, without a link, or
with shorter link text yield no record.  `rowRecordSpec` states this row
rule; the extractor is exactly its `filterMap` over the non-header rows. -/
theorem extract_chapters_amended (hdr : Row) (rows : List Row) :
    extractChaptersFromPage (some (hdr :: rows)) = rows.filterMap rowRecordSpec := by
  unfold extractChaptersFromPage
  dsimp only
  rw [List.drop_one, List.tail_cons]
  exact congrArg (fun f => rows.filterMap f) (funext extractRowChapter_eq_rowRecordSpec)

/-- C8 counterexample: with genre links `[" ", "Action", "Action"]` the
extracted sequence is `["", "Action", "Action"]` — it has a duplicate and
an empty string, because nothing deduplicates and the truthiness test runs
on the raw text before `.strip()`. -/
theorem genres_counterexample :
    extractGenres [some " ", some "Action", some "Action"] = ["", "Action", "Action"] ∧
    ¬ (extractGenres [some " ", some "Action", some "Action"]).Nodup ∧
    "" ∈ extractGenres [some " ", some "Action", some "Action"] := by decide

/-- C8 (amended): the extracted genres are exactly the stripped texts, in
order of appearance, of the genre links whose raw text is present and
non-empty; duplicates are kept, and a whitespace-only tag contributes an
empty string (the truthiness test precedes `.strip()`). -/
theorem genres_amended (links : List (Option String)) :
    extractGenres links =
      ((links.filterMap id).filter (fun s => !(s == ""))).map
        (fun s => String.mk (pyStrip s.data)) ∧
    (extractGenres links).length ≤ links.length := by
  constructor
  · induction links with
    | nil => rfl
    | cons hd t ih =>
      rcases hd with _ | s
      · simpa [extractGenres] using ih
      · by_cases hs : s = ""
        · subst hs
          simpa [extractGenres] using ih
        · simpa [extractGenres, hs] using ih
  · exact List.length_filterMap_le _ links

/-- C9: for a successful scrape, if chapter records were extracted the
returned `total_chapters` is their count (the observed count overrides the
status-derived one); with no records — in particular whenever chapter
scraping was not requested — it keeps the status-derived value. -/
theorem total_chapters_override (fetch : Nat → Except String Doc) (doc : Doc) (b : Bool)
    (res : NovelInfo) (log : List Nat)
    (h1 : fetch 1 = Except.ok doc)
    (h2 : scrapeNovelByUrl fetch b = (Except.ok res, log)) :
    (res.chapters ≠ [] → res.total_chapters = res.chapters.length) ∧
    (res.chapters = [] → res.total_chapters = (extractStatusInfo doc.statusText).total_chapters) ∧
    (b = false → res.chapters = []) := by
  unfold scrapeNovelByUrl at h2
  rw [h1] at h2
  dsimp only at h2
  cases b with
  | false =>
    rw [if_neg (by simp)] at h2
    have hfst := congrArg Prod.fst h2
    dsimp only at hfst
    injection hfst with hinfo
    subst hinfo
    refine ⟨fun hne => absurd rfl hne, fun _ => rfl, fun _ => rfl⟩
  | true =>
    rw [if_pos rfl] at h2
    have hfst := congrArg Prod.fst h2
    dsimp only at hfst
    injection hfst with hinfo
    subst hinfo
    dsimp only
    refine ⟨?_, ?_, fun hb => absurd hb (by simp)⟩
    · intro hne
      rw [if_neg (by simpa [List.isEmpty_iff] using hne)]
    · intro he
      rw [if_pos (by simpa [List.isEmpty_iff] using he)]

theorem total_chapters_override_witness :
    wRes.chapters ≠ [] ∧ wRes.total_chapters = wRes.chapters.length := by
  have h := total_chapters_override wFetch wDoc1 true wRes
    (scrapeNovelByUrl wFetch true).2 rfl rfl
  exact ⟨by decide, h.1 (by decide)⟩

theorem startsWith_http_https_append (s : String) :
    strStartsWith ("https:" ++ s) "http" = true := by
  unfold strStartsWith
  rw [String.data_append]
  rfl

theorem startsWith_http_base_append (s : String) :
    strStartsWith (baseUrl ++ s) "http" = true := by
  unfold strStartsWith baseUrl
  rw [String.data_append]
  rfl

/-- C10: the extracted `cover_url` is `none` or starts with `"http"`, the
scan is decided by the first `src` matching the cover heuristic, and when
that first matching `src` is a bare relative path (no `//`, `/` or `http`
start) the result is `none` even if a later image would have matched. -/
theorem cover_url_spec (srcs : List String) :
    (∀ u, extractCover srcs = some u → strStartsWith u "http" = true) ∧
    (∀ pre src post, srcs = pre ++ src :: post →
      (∀ s ∈ pre, isCoverSrc s = false) → isCoverSrc src = true →
      extractCover srcs = normalizeCover src) ∧
    (∀ src, isCoverSrc src = true → strStartsWith src "//" = false →
      strStartsWith src "/" = false → strStartsWith src "http" = false →
      normalizeCover src = none) := by
  refine ⟨?_, ?_, ?_⟩
  · induction srcs with
    | nil =>
      intro u hu
      exact absurd hu (by simp [extractCover])
    | cons s rest ih =>
      intro u hu
      unfold extractCover at hu
      by_cases hc : isCoverSrc s
      · rw [if_pos hc] at hu
        unfold normalizeCover at hu
        by_cases h1 : strStartsWith s "//"
        · rw [if_pos h1] at hu
          injection hu with hu'
          subst hu'
          exact startsWith_http_https_append s
        · rw [if_neg h1] at hu
          by_cases h2 : strStartsWith s "/"
          · rw [if_pos h2] at hu
            injection hu with hu'
            subst hu'
            exact startsWith_http_base_append s
          · rw [if_neg h2] at hu
            by_cases h3 : strStartsWith s "http"
            · rw [if_pos h3] at hu
              injection hu with hu'
              subst hu'
              simpa using h3
            · rw [if_neg h3] at hu
              exact absurd hu (by simp)
      · rw [if_neg hc] at hu
        exact ih u hu
  · intro pre src post hsrcs hpre hsrc
    subst hsrcs
    induction pre with
    | nil =>
      rw [List.nil_append]
      unfold extractCover
      rw [if_pos hsrc]
    | cons s t ih =>
      have hs : isCoverSrc s = false := hpre s (by simp)
      rw [List.cons_append]
      unfold extractCover
      rw [if_neg (by simp [hs])]
      exact ih (fun x hx => hpre x (by simp [hx]))
  · intro src _ h1 h2 h3
    unfold normalizeCover
    rw [if_neg (by simp [h1]), if_neg (by simp [h2]), if_neg (by simp [h3])]

theorem cover_url_spec_witness :
    extractCover ["style.css", "bare_cover.jpg", "https://x/cover.jpg"] = none := by
  have hfirst := (cover_url_spec ["style.css", "bare_cover.jpg", "https://x/cover.jpg"]).2.1
    ["style.css"] "bare_cover.jpg" ["https://x/cover.jpg"] rfl
    (by intro s hs; simp at hs; subst hs; decide) (by decide)
  rw [hfirst]
  exact (cover_url_spec ["style.css", "bare_cover.jpg", "https://x/cover.jpg"]).2.2
    "bare_cover.jpg" (by decide) (by decide) (by decide) (by decide)
